import Mathlib

/-!
Shallow embedding of the rad-rpc core (src/src/core.rs): the JSON-RPC
"run" and "show" handlers over an in-memory substate store.  External
collaborators (the radix engine's decoder `validate_data`, the value
formatter, key/manifest parsing and the execution engine) are treated as
the spec directs: deterministic pure functions, abstracted either by
making a blob carry its own decode outcome or by passing the function as
a parameter.
-/

namespace RadRpc

/-- Lazy-map (collection) identifier, `Mid` in scrypto. -/
abbrev Mid := Nat

/-- Vault identifier, `Vid` in scrypto. -/
abbrev Vid := Nat

/-- A non-fungible key; the source turns it into a byte vector with
`key.to_vec()`. -/
abbrev NfKey := List Nat

/-- Parsed ECDSA public key (opaque to the core logic). -/
abbrev EcdsaPublicKey := Nat

/-- `scrypto::types::Address`: three disjoint variants. -/
inductive Address where
  | package : Nat → Address
  | component : Nat → Address
  | resourceDef : Nat → Address
deriving DecidableEq, Repr

def Address.is_package : Address → Bool
  | .package _ => true
  | _ => false

def Address.is_component : Address → Bool
  | .component _ => true
  | _ => false

def Address.is_resource_def : Address → Bool
  | .resourceDef _ => true
  | _ => false

/-- Model of the `Display` rendering of an address (`x.to_string()`):
any injective rendering works for the claims. -/
def Address.toText : Address → String
  | .package n => "package-" ++ toString n
  | .component n => "component-" ++ toString n
  | .resourceDef n => "resourceDef-" ++ toString n

/-- Result of `validate_data` on a blob: a display-able value tree
(collapsed to its canonical string `dom`), the raw bytes, and the
lazy-map and vault identifiers referenced at the top level of decoding. -/
structure ValidatedData where
  dom : String
  raw : List Nat
  lazy_maps : List Mid
  vaults : List Vid
deriving DecidableEq, Repr

/-- An opaque encoded blob.  The decoder is deterministic and pure
(spec section 3), so a blob is embedded as its decode outcome:
`none` is a blob that fails validation. -/
abbrev Blob := Option ValidatedData

/-- `radix_engine::engine::validate_data` (external collaborator):
turns a blob into a structured value or a `DataValidationError`
(modelled as `Unit`). -/
def validate_data : Blob → Except Unit ValidatedData
  | some v => Except.ok v
  | none => Except.error ()

/-- Modelled from the spec: the repository's `formatter` module
(declared in main.rs, not under src/) converts a decoded value tree into
a canonical display string.  The call sites pass the decoded `dom` and
two empty maps; the model renders the canonical string directly. -/
def format_value (dom : String) : String := dom

/-- `jsonrpc_core::ErrorCode`: the variants the source uses, with the
standard JSON-RPC numeric codes. -/
inductive ErrorCode where
  | parseError
  | invalidRequest
  | serverError : Int → ErrorCode
deriving DecidableEq, Repr

/-- The stable numeric code of a `jsonrpc_core::ErrorCode`. -/
def ErrorCode.code : ErrorCode → Int
  | .parseError => -32700
  | .invalidRequest => -32600
  | .serverError n => n

/-- `jsonrpc_core::Error` (the `data` field is always `None` in the
source and is omitted). -/
structure RpcError where
  code : ErrorCode
  message : String
deriving DecidableEq, Repr

/-- A minimal JSON value tree covering what the handlers build. -/
inductive Json where
  | null : Json
  | str : String → Json
  | num : Int → Json
  | arr : List Json → Json
  | obj : List (String × Json) → Json

/-- `json!` rendering of an `Option<&String>` field (null or string). -/
def optStr : Option String → Json
  | some s => Json.str s
  | none => Json.null

/-- A handler result: `jsonrpc_core::Result<Value>`. -/
abbrev RpcResult := Except RpcError Json

/-- The numeric code carried by an error result, if any. -/
def rpcCode : RpcResult → Option Int
  | Except.error e => some e.code.code
  | Except.ok _ => none

/-- `fn parse_err()` in core.rs. -/
def parse_err : RpcResult :=
  Except.error ⟨ErrorCode.parseError, "Can't parse parameters"⟩

/-- `fn ecdsa_err()` in core.rs. -/
def ecdsa_err : RpcResult :=
  Except.error ⟨ErrorCode.parseError, "Can't parse ecdsa key"⟩

/-- `fn not_found_err(msg)` in core.rs. -/
def not_found_err (msg : String) : RpcResult :=
  Except.error ⟨ErrorCode.serverError 1, msg⟩

/-- `fn internal_err(msg, code)` in core.rs. -/
def internal_err (msg : String) (code : Int) : RpcResult :=
  Except.error ⟨ErrorCode.serverError code, msg⟩

/-- `fn transaction_validation_err()` in core.rs. -/
def transaction_validation_err : RpcResult :=
  Except.error ⟨ErrorCode.serverError 666, "Transaction validation error"⟩

/-- `fn transaction_execution_error()` in core.rs. -/
def transaction_execution_error : RpcResult :=
  Except.error ⟨ErrorCode.serverError 33, "Transaction execution error"⟩

/-- `fn transaction_compile_err()` in core.rs. -/
def transaction_compile_err : RpcResult :=
  Except.error ⟨ErrorCode.invalidRequest, "Transaction compile error"⟩

/-- Outcome of code that may hit an `unwrap()` on a missing value:
either a Rust panic or a normal value. -/
inductive POut (α : Type) where
  | panic : POut α
  | ok : α → POut α

/-! ## The materialized store -/

/-- A stored package: its wasm code bytes. -/
structure Package where
  code : List Nat
deriving DecidableEq, Repr

/-- A stored component: owning package, blueprint name, opaque state. -/
structure Component where
  package_address : Address
  blueprint_name : String
  state : Blob
deriving DecidableEq, Repr

/-- A stored lazy map (collection): its key/value blob entries. -/
structure LazyMap where
  map : List (Blob × Blob)
deriving DecidableEq, Repr

/-- `radix_engine::model::Supply`: fungible amount or non-fungible key
set (the fungible payload is irrelevant to the handlers). -/
inductive Supply where
  | fungible : Supply
  | nonFungible : List NfKey → Supply
deriving DecidableEq, Repr

/-- A stored vault: held amount, resource address and total supply. -/
structure Vault where
  amount : Nat
  resource_address : Address
  total_supply : Supply
deriving DecidableEq, Repr

/-- A stored resource definition: its display metadata. -/
structure ResourceDef where
  metadata : List (String × String)
deriving DecidableEq, Repr

/-- A stored non-fungible asset: its two payload blobs. -/
structure NonFungible where
  immutable_data : Blob
  mutable_data : Blob
deriving DecidableEq, Repr

/-- First-match association-list lookup (the point-lookup capability of
the key-addressed store). -/
def alookup {α β : Type} [DecidableEq α] : List (α × β) → α → Option β
  | [], _ => none
  | p :: rest, a => if p.1 = a then some p.2 else alookup rest a

/-- The `InMemorySubstateStore`: a key-addressed store of packages,
components, lazy maps, vaults, resource definitions and non-fungibles,
each reached only by point lookup. -/
structure Ledger where
  packages : List (Address × Package)
  components : List (Address × Component)
  lazy_maps : List ((Address × Mid) × LazyMap)
  vaults : List ((Address × Vid) × Vault)
  resource_defs : List (Address × ResourceDef)
  non_fungibles : List ((Address × NfKey) × NonFungible)
deriving Repr

def Ledger.get_package (lg : Ledger) (a : Address) : Option Package :=
  alookup lg.packages a

def Ledger.get_component (lg : Ledger) (a : Address) : Option Component :=
  alookup lg.components a

def Ledger.get_lazy_map (lg : Ledger) (a : Address) (mid : Mid) :
    Option LazyMap :=
  alookup lg.lazy_maps (a, mid)

def Ledger.get_vault (lg : Ledger) (a : Address) (vid : Vid) :
    Option Vault :=
  alookup lg.vaults (a, vid)

def Ledger.get_resource_def (lg : Ledger) (a : Address) :
    Option ResourceDef :=
  alookup lg.resource_defs a

def Ledger.get_non_fungible (lg : Ledger) (a : Address) (key : NfKey) :
    Option NonFungible :=
  alookup lg.non_fungibles (a, key)

/-! ## dump_package -/

/-- `fn dump_package` (core.rs:169-187): read the package, take its code
size (0 when absent), answer `{bytes: size}` when positive and
"Package not found" otherwise. -/
def dump_package (lg : Ledger) (address : Address) : RpcResult :=
  let bytes : Nat :=
    match lg.get_package address with
    | some package => package.code.length
    | none => 0
  if bytes > 0 then
    Except.ok (Json.obj [("bytes", Json.num (Int.ofNat bytes))])
  else
    not_found_err "Package not found"

/-! ## dump_lazy_map and dump_resources -/

/-- The entry loop of `dump_lazy_map` (core.rs:278-291): validate each
key and value (`?` aborts the whole call on the first failure), format
both, and collect the lazy maps and vaults they reference.  The source
decorates the iteration with `identify_last`; the flag is never used. -/
def dump_entries : List (Blob × Blob) →
    Except Unit (List Mid × List Vid × List (String × String))
  | [] => Except.ok ([], [], [])
  | (k, v) :: rest =>
    match validate_data k with
    | Except.error e => Except.error e
    | Except.ok k_validated =>
      match validate_data v with
      | Except.error e => Except.error e
      | Except.ok v_validated =>
        match dump_entries rest with
        | Except.error e => Except.error e
        | Except.ok (ms, vs, jm) =>
          Except.ok
            (k_validated.lazy_maps ++ v_validated.lazy_maps ++ ms,
             k_validated.vaults ++ v_validated.vaults ++ vs,
             (format_value k_validated.dom, format_value v_validated.dom)
               :: jm)

/-- `fn dump_lazy_map` (core.rs:265-293): the store lookup is
unwrapped, so an absent lazy map panics the handler. -/
def dump_lazy_map (lg : Ledger) (address : Address) (mid : Mid) :
    POut (Except Unit (List Mid × List Vid × List (String × String))) :=
  match lg.get_lazy_map address mid with
  | none => POut.panic
  | some m => POut.ok (dump_entries m.map)

/-- The non-fungible loop of `dump_resources` (core.rs:330-349): every
held key is resolved and both payloads are decoded; every lookup and
every decode is unwrapped, so any failure panics the whole handler. -/
def dump_non_fungibles (lg : Ledger) (resource_address : Address) :
    List NfKey → POut (List Json)
  | [] => POut.ok []
  | key :: rest =>
    match lg.get_non_fungible resource_address key with
    | none => POut.panic
    | some non_fungible =>
      match validate_data non_fungible.immutable_data with
      | Except.error _ => POut.panic
      | Except.ok immutable_validated =>
        match validate_data non_fungible.mutable_data with
        | Except.error _ => POut.panic
        | Except.ok mutable_validated =>
          match dump_non_fungibles lg resource_address rest with
          | POut.panic => POut.panic
          | POut.ok js =>
            POut.ok
              (Json.obj
                 [("NON_FUNGIBLE", Json.obj
                   [("id", Json.arr (key.map
                       (fun n => Json.num (Int.ofNat n)))),
                    ("immutable_data", Json.arr (immutable_validated.raw.map
                       (fun n => Json.num (Int.ofNat n)))),
                    ("mutable_data", Json.arr (mutable_validated.raw.map
                       (fun n => Json.num (Int.ofNat n))))])]
               :: js)

/-- The vault loop of `dump_resources` (core.rs:302-351): the vault and
resource-definition lookups are unwrapped (absent entries panic); the
vault entry is emitted, then the non-fungible entries, then the rest. -/
def dump_resources_list (lg : Ledger) (address : Address) :
    List Vid → POut (List Json)
  | [] => POut.ok []
  | vid :: rest =>
    match lg.get_vault address vid with
    | none => POut.panic
    | some vault =>
      match lg.get_resource_def vault.resource_address with
      | none => POut.panic
      | some resource_def =>
        let entry := Json.obj
          [("amount", Json.str (toString vault.amount)),
           ("resource_def", Json.str vault.resource_address.toText),
           ("name", optStr (alookup resource_def.metadata "name")),
           ("symbol", optStr (alookup resource_def.metadata "symbol"))]
        match (match vault.total_supply with
               | Supply.nonFungible keys =>
                 dump_non_fungibles lg vault.resource_address keys
               | Supply.fungible => POut.ok []) with
        | POut.panic => POut.panic
        | POut.ok nfs =>
          match dump_resources_list lg address rest with
          | POut.panic => POut.panic
          | POut.ok more => POut.ok (entry :: (nfs ++ more))

/-- `fn dump_resources` (core.rs:295-353).  Its Rust signature allows a
`DataValidationError`, but the body unwraps every fallible step, so it
only ever produces a normal value or a panic. -/
def dump_resources (lg : Ledger) (address : Address) (vaults : List Vid) :
    POut (Except Unit (List Json)) :=
  match dump_resources_list lg address vaults with
  | POut.panic => POut.panic
  | POut.ok l => POut.ok (Except.ok l)

/-! ## The component traversal -/

/-- The lazy-map identifiers materialized in the store for `address`:
every identifier the traversal can successfully dequeue lies in this
finite list. -/
def midDomain (lg : Ledger) (a : Address) : List Mid :=
  (lg.lazy_maps.filter (fun p => decide (p.1.1 = a))).map (fun p => p.1.2)

lemma alookup_mem_keys {α β : Type} [DecidableEq α] {l : List (α × β)}
    {k : α} {v : β} (h : alookup l k = some v) : k ∈ l.map Prod.fst := by
  induction l with
  | nil => simp [alookup] at h
  | cons p rest ih =>
    by_cases hk : p.1 = k
    · simp [hk.symm]
    · rw [alookup, if_neg hk] at h
      simpa using Or.inr (ih h)

lemma get_lazy_map_mem_domain {lg : Ledger} {a : Address} {mid : Mid}
    {m : LazyMap} (h : lg.get_lazy_map a mid = some m) :
    mid ∈ midDomain lg a := by
  have hk : (a, mid) ∈ lg.lazy_maps.map Prod.fst := alookup_mem_keys h
  rw [List.mem_map] at hk
  obtain ⟨p, hp, hfst⟩ := hk
  rw [midDomain, List.mem_map]
  refine ⟨p, ?_, ?_⟩
  · rw [List.mem_filter]
    exact ⟨hp, by simp [hfst]⟩
  · rw [hfst]

lemma dump_lazy_map_ok_mem_domain {lg : Ledger} {a : Address} {mid : Mid}
    {e : Except Unit (List Mid × List Vid × List (String × String))}
    (h : dump_lazy_map lg a mid = POut.ok e) : mid ∈ midDomain lg a := by
  rw [dump_lazy_map] at h
  cases hm : lg.get_lazy_map a mid with
  | none => rw [hm] at h; cases h
  | some m => exact get_lazy_map_mem_domain hm

lemma length_filter_imp {l : List Mid} {p q : Mid → Bool}
    (h : ∀ x, p x = true → q x = true) :
    (l.filter p).length ≤ (l.filter q).length := by
  induction l with
  | nil => simp
  | cons a t ih =>
    simp only [List.filter_cons]
    by_cases hp : p a = true
    · rw [if_pos hp, if_pos (h a hp)]
      simpa using ih
    · rw [if_neg hp]
      by_cases hq : q a = true
      · rw [if_pos hq]
        exact Nat.le_succ_of_le ih
      · rw [if_neg hq]
        exact ih

lemma filter_unvisited_lt {dom visited : List Mid} {mid : Mid}
    (hd : mid ∈ dom) (hv : mid ∉ visited) :
    (dom.filter (fun m => decide (m ∉ mid :: visited))).length <
      (dom.filter (fun m => decide (m ∉ visited))).length := by
  induction dom with
  | nil => cases hd
  | cons a t ih =>
    simp only [List.filter_cons]
    by_cases ha : a = mid
    · subst ha
      rw [if_neg (by simp), if_pos (by simp [hv])]
      have hle : (t.filter (fun m => decide (m ∉ a :: visited))).length ≤
          (t.filter (fun m => decide (m ∉ visited))).length := by
        apply length_filter_imp
        intro x hx
        simp only [decide_eq_true_eq] at hx ⊢
        intro hxv
        exact hx (List.mem_cons_of_mem _ hxv)
      exact Nat.lt_succ_of_le hle
    · have hat : mid ∈ t := by
        rcases List.mem_cons.mp hd with h1 | h1
        · exact absurd h1.symm ha
        · exact h1
      by_cases hav : a ∈ visited
      · rw [if_neg (by simp [hav]), if_neg (by simp [hav])]
        exact ih hat
      · rw [if_pos (by simp [ha, hav]), if_pos (by simp [hav])]
        exact Nat.succ_lt_succ (ih hat)

/-- `HashSet::insert` on the discovered-vault set, modelled as a
duplicate-free list in first-insertion order. -/
def insert_new (l : List Vid) (v : Vid) : List Vid :=
  if v ∈ l then l else l ++ [v]

/-- Insert every element of `vs` into the set `l`. -/
def insert_all (l : List Vid) (vs : List Vid) : List Vid :=
  vs.foldl insert_new l

/-- The JSON object built from a decoded collection's key/value
strings. -/
def lazyMapJson (jm : List (String × String)) : Json :=
  Json.obj (jm.map (fun p => (p.1, Json.str p.2)))

/-- The while loop of `dump_component` (core.rs:229-245), in worklist
form: `pending` is the unprocessed tail `queue[i..]` of the growing
queue; `visited` is `maps_visited` as a list of first insertions
(newest first), which receives `mid` exactly when `dump_lazy_map` is
invoked on `mid`, so it doubles as the trace of decode calls.  A decode
failure flags `internal_error` but the loop continues; an absent map
panics.  Termination is well-founded: a fresh visit consumes an
unvisited identifier from the finite store domain `midDomain`, a
revisit shortens the pending queue. -/
def traverse (lg : Ledger) (address : Address) :
    List Mid → List Mid → List Vid → List Json → Bool →
    POut (List Mid × List Vid × List Json × Bool)
  | [], visited, vaults_found, lazy_maps, internal_error =>
    POut.ok (visited, vaults_found, lazy_maps, internal_error)
  | mid :: rest, visited, vaults_found, lazy_maps, internal_error =>
    if hv : mid ∈ visited then
      traverse lg address rest visited vaults_found lazy_maps
        internal_error
    else
      match hdump : dump_lazy_map lg address mid with
      | POut.panic => POut.panic
      | POut.ok (Except.error _) =>
        traverse lg address rest (mid :: visited) vaults_found lazy_maps
          true
      | POut.ok (Except.ok (refs, vids, jm)) =>
        traverse lg address (rest ++ refs) (mid :: visited)
          (insert_all vaults_found vids)
          (lazy_maps ++ [lazyMapJson jm]) internal_error
termination_by pending visited _ _ _ =>
  (((midDomain lg address).filter
      (fun m => decide (m ∉ visited))).length,
   pending.length)
decreasing_by
  · apply Prod.Lex.right
    simp
  · apply Prod.Lex.left
    exact filter_unvisited_lt (dump_lazy_map_ok_mem_domain hdump) hv
  · apply Prod.Lex.left
    exact filter_unvisited_lt (dump_lazy_map_ok_mem_domain hdump) hv

/-- Step-indexed mirror of `traverse`: `none` means the step budget ran
out.  Used to state that the source's while loop finishes after
finitely many iterations. -/
def traverseFuel (lg : Ledger) (address : Address) :
    Nat → List Mid → List Mid → List Vid → List Json → Bool →
    Option (POut (List Mid × List Vid × List Json × Bool))
  | _, [], visited, vaults_found, lazy_maps, internal_error =>
    some (POut.ok (visited, vaults_found, lazy_maps, internal_error))
  | 0, _ :: _, _, _, _, _ => none
  | n + 1, mid :: rest, visited, vaults_found, lazy_maps,
      internal_error =>
    if mid ∈ visited then
      traverseFuel lg address n rest visited vaults_found lazy_maps
        internal_error
    else
      match dump_lazy_map lg address mid with
      | POut.panic => some POut.panic
      | POut.ok (Except.error _) =>
        traverseFuel lg address n rest (mid :: visited) vaults_found
          lazy_maps true
      | POut.ok (Except.ok (refs, vids, jm)) =>
        traverseFuel lg address n (rest ++ refs) (mid :: visited)
          (insert_all vaults_found vids)
          (lazy_maps ++ [lazyMapJson jm]) internal_error

/-! ## dump_component and show -/

/-- `fn dump_component` (core.rs:189-263).  The source pushes metadata,
the formatted state string, the decoded collections and the resolved
resources into a response vector, but that vector is never used in the
response: the success branch answers the constant JSON string "ok".
The embedding computes the same pieces and mirrors that final answer. -/
def dump_component (lg : Ledger) (address : Address) : POut RpcResult :=
  match lg.get_component address with
  | none => POut.ok (not_found_err "Component not found")
  | some c =>
    let _return_vec_meta := Json.obj
      [("package_address", Json.str c.package_address.toText),
       ("blueprint_name", Json.str c.blueprint_name)]
    match validate_data c.state with
    | Except.error _ =>
      POut.ok (internal_err "Problem while validating state" 555)
    | Except.ok state_validated =>
      let _return_vec_state := Json.obj
        [("state", Json.str (format_value state_validated.dom))]
      match traverse lg address state_validated.lazy_maps []
          (insert_all [] state_validated.vaults) [] false with
      | POut.panic => POut.panic
      | POut.ok (_, vaults_found, _, internal_error) =>
        match dump_resources lg address vaults_found with
        | POut.panic => POut.panic
        | POut.ok res =>
          let internal_error2 :=
            internal_error ||
              (match res with
               | Except.error _ => true
               | Except.ok _ => false)
          POut.ok
            (if internal_error2 then
              internal_err "Problem while validating state" 555
            else Except.ok (Json.str "ok"))

/-- `fn show` (core.rs:152-167), parameterized by the external address
parser: packages and components are dumped, resource-definition
addresses are rejected like malformed input. -/
def show_method (parseAddress : String → Option Address) (lg : Ledger)
    (address : String) : POut RpcResult :=
  match parseAddress address with
  | none => POut.ok parse_err
  | some (Address.package n) =>
    POut.ok (dump_package lg (Address.package n))
  | some (Address.component n) => dump_component lg (Address.component n)
  | some (Address.resourceDef _) => POut.ok parse_err

/-! ## run -/

/-- Parameters of the "run" method. -/
structure RunParams where
  manifest : String
  signers : List String

/-- A transaction instruction; `run` only ever appends `End`. -/
inductive Instruction where
  | endI : List EcdsaPublicKey → Instruction
  | other : Nat → Instruction
deriving DecidableEq, Repr

/-- A compiled transaction manifest. -/
structure Transaction where
  instructions : List Instruction
deriving DecidableEq, Repr

/-- `radix_engine::model::Receipt`: the assembled outcome of a
transaction the engine managed to run. -/
structure Receipt where
  result : Except Unit Unit
  outputs : List ValidatedData
  new_entities : List Address
deriving Repr

/-- The signer-parsing loop of `run` (core.rs:59-69): the first failing
key aborts the whole request. -/
def parse_signers (parseKey : String → Option EcdsaPublicKey) :
    List String → Option (List EcdsaPublicKey)
  | [] => some []
  | s :: rest =>
    match parseKey s with
    | none => none
    | some k =>
      match parse_signers parseKey rest with
      | none => none
      | some ks => some (k :: ks)

/-- What `run` leaves behind: the RPC response, the final store, and
whether the exclusive write lock on the shared ledger handle was ever
acquired. -/
structure RunOutcome where
  response : RpcResult
  ledger : Ledger
  acquired_write_lock : Bool

/-- The success payload of `run` (core.rs:101-144): formatted outputs in
engine order and the new entities partitioned by address variant. -/
def run_success_json (receipt : Receipt) : Json :=
  Json.obj
    [("packages", Json.arr ((receipt.new_entities.filter
        (fun a => a.is_package)).map (fun a => Json.str a.toText))),
     ("components", Json.arr ((receipt.new_entities.filter
        (fun a => a.is_component)).map (fun a => Json.str a.toText))),
     ("resource_defs", Json.arr ((receipt.new_entities.filter
        (fun a => a.is_resource_def)).map (fun a => Json.str a.toText))),
     ("outputs", Json.arr (receipt.outputs.map
        (fun o => Json.str (format_value o.dom))))]

/-- `fn run` (core.rs:58-150), parameterized by the external key parser,
manifest compiler and execution engine.  Signer parsing happens before
the write lock; compilation and execution happen inside it; the
`execute` capability consumes the store and returns either an engine
failure or a receipt, together with the possibly-updated store.  An
engine failure leaves `receipt_opt` empty and is answered with
`transaction_validation_err`; a receipt whose assembled result failed is
answered with `transaction_execution_error`. -/
def run (parseKey : String → Option EcdsaPublicKey)
    (compile : String → Option Transaction)
    (execute : Ledger → Transaction → Except Unit Receipt × Ledger)
    (lg : Ledger) (params : RunParams) : RunOutcome :=
  match parse_signers parseKey params.signers with
  | none => ⟨ecdsa_err, lg, false⟩
  | some signatures =>
    match compile params.manifest with
    | none => ⟨transaction_compile_err, lg, true⟩
    | some transaction =>
      let transaction2 : Transaction :=
        ⟨transaction.instructions ++ [Instruction.endI signatures]⟩
      match execute lg transaction2 with
      | (Except.error _, lg2) => ⟨transaction_validation_err, lg2, true⟩
      | (Except.ok receipt, lg2) =>
        match receipt.result with
        | Except.ok _ => ⟨Except.ok (run_success_json receipt), lg2, true⟩
        | Except.error _ => ⟨transaction_execution_error, lg2, true⟩

/-! ## Concrete stores and capabilities used to exercise the handlers -/

/-- A store with no entries at all. -/
def emptyStore : Ledger := ⟨[], [], [], [], [], []⟩

/-- A store holding one fully-populated component: metadata, valid
state referencing one collection and one vault, a decodable collection
entry, and a fungible vault with named resource. -/
def storeSnapshot : Ledger :=
  { packages := []
  , components := [(Address.component 1,
      { package_address := Address.package 9
      , blueprint_name := "BP"
      , state := some
          { dom := "sdom", raw := [], lazy_maps := [7], vaults := [3] } })]
  , lazy_maps := [((Address.component 1, 7),
      { map := [(some { dom := "k", raw := [], lazy_maps := [], vaults := [] },
                 some { dom := "v", raw := [], lazy_maps := [], vaults := [] })] })]
  , vaults := [((Address.component 1, 3),
      { amount := 5
      , resource_address := Address.resourceDef 2
      , total_supply := Supply.fungible })]
  , resource_defs := [(Address.resourceDef 2, { metadata := [("name", "Tok")] })]
  , non_fungibles := [] }

/-- A store holding a component whose top-level state blob fails
validation. -/
def storeBadState : Ledger :=
  { packages := []
  , components := [(Address.component 1,
      { package_address := Address.package 9
      , blueprint_name := "BP"
      , state := none })]
  , lazy_maps := [], vaults := [], resource_defs := [], non_fungibles := [] }

/-- A store whose reference graph has a cycle: collection 7 references
itself and collection 8, and collection 8 references 7 back. -/
def storeCyclic : Ledger :=
  { packages := []
  , components := [(Address.component 1,
      { package_address := Address.package 9
      , blueprint_name := "BP"
      , state := some
          { dom := "s", raw := [], lazy_maps := [7], vaults := [] } })]
  , lazy_maps := [((Address.component 1, 7),
      { map := [(some { dom := "k", raw := [], lazy_maps := [7, 8], vaults := [] },
                 some { dom := "v", raw := [], lazy_maps := [], vaults := [] })] }),
      ((Address.component 1, 8),
      { map := [(some { dom := "k2", raw := [], lazy_maps := [7], vaults := [] },
                 some { dom := "v2", raw := [], lazy_maps := [], vaults := [] })] })]
  , vaults := [], resource_defs := [], non_fungibles := [] }

/-- A store with two vaults: vault 0 holds a non-fungible whose
immutable payload fails validation; vault 1 is healthy. -/
def storeBadNonFungible : Ledger :=
  { packages := []
  , components := []
  , lazy_maps := []
  , vaults := [((Address.component 1, 0),
      { amount := 1
      , resource_address := Address.resourceDef 2
      , total_supply := Supply.nonFungible [[4]] }),
      ((Address.component 1, 1),
      { amount := 2
      , resource_address := Address.resourceDef 3
      , total_supply := Supply.fungible })]
  , resource_defs := [(Address.resourceDef 2, { metadata := [] }),
      (Address.resourceDef 3, { metadata := [] })]
  , non_fungibles := [((Address.resourceDef 2, [4]),
      { immutable_data := none
      , mutable_data := some
          { dom := "m", raw := [], lazy_maps := [], vaults := [] } })] }

/-- A store with one nonempty package at address 5 and nothing else. -/
def storePackages : Ledger :=
  { packages := [(Address.package 5, { code := [1, 2, 3] })]
  , components := [], lazy_maps := [], vaults := []
  , resource_defs := [], non_fungibles := [] }

/-- A store holding a vault whose resource definition is absent. -/
def storeNoResourceDef : Ledger :=
  { packages := [], components := [], lazy_maps := []
  , vaults := [((Address.component 1, 0),
      { amount := 1
      , resource_address := Address.resourceDef 2
      , total_supply := Supply.fungible })]
  , resource_defs := [], non_fungibles := [] }

/-- A store holding a non-fungible vault whose held key is absent from
the non-fungible table. -/
def storeNoNonFungible : Ledger :=
  { packages := [], components := [], lazy_maps := []
  , vaults := [((Address.component 1, 0),
      { amount := 1
      , resource_address := Address.resourceDef 2
      , total_supply := Supply.nonFungible [[9]] })]
  , resource_defs := [(Address.resourceDef 2, { metadata := [] })]
  , non_fungibles := [] }

/-- A key parser accepting every signer string. -/
def parseKeyAll : String → Option EcdsaPublicKey := fun _ => some 0

/-- A key parser rejecting every signer string. -/
def parseKeyNone : String → Option EcdsaPublicKey := fun _ => none

/-- A compiler accepting every manifest. -/
def compileOk : String → Option Transaction := fun _ => some ⟨[]⟩

/-- An engine that cannot run any transaction (the `executor.run` call
fails). -/
def executeFail : Ledger → Transaction → Except Unit Receipt × Ledger :=
  fun lg _ => (Except.error (), lg)

/-- An engine that runs every transaction but assembles a rejected
outcome (`receipt.result` is an error). -/
def executeReject : Ledger → Transaction → Except Unit Receipt × Ledger :=
  fun lg _ => (Except.ok ⟨Except.error (), [], []⟩, lg)

/-- A run request with an empty signer list. -/
def runParamsNoSigners : RunParams := ⟨"m", []⟩

/-- A run request with one signer string. -/
def runParamsOneSigner : RunParams := ⟨"m", ["bad"]⟩

/-! ## Traversal lemmas -/

lemma traverse_nil (lg : Ledger) (address : Address) (visited : List Mid)
    (vf : List Vid) (lm : List Json) (ie : Bool) :
    traverse lg address [] visited vf lm ie = POut.ok (visited, vf, lm, ie) := by
  simp [traverse]

lemma traverse_cons_mem {lg : Ledger} {address : Address} {mid : Mid}
    {rest visited : List Mid} {vf : List Vid} {lm : List Json} {ie : Bool}
    (h : mid ∈ visited) :
    traverse lg address (mid :: rest) visited vf lm ie =
      traverse lg address rest visited vf lm ie := by
  simp [traverse, h]

lemma traverse_cons_panic {lg : Ledger} {address : Address} {mid : Mid}
    {rest visited : List Mid} {vf : List Vid} {lm : List Json} {ie : Bool}
    (hv : mid ∉ visited)
    (hd : dump_lazy_map lg address mid = POut.panic) :
    traverse lg address (mid :: rest) visited vf lm ie = POut.panic := by
  rw [traverse, dif_neg hv]
  split <;> simp_all

lemma traverse_cons_error {lg : Ledger} {address : Address} {mid : Mid}
    {rest visited : List Mid} {vf : List Vid} {lm : List Json} {ie : Bool}
    {u : Unit} (hv : mid ∉ visited)
    (hd : dump_lazy_map lg address mid = POut.ok (Except.error u)) :
    traverse lg address (mid :: rest) visited vf lm ie =
      traverse lg address rest (mid :: visited) vf lm true := by
  rw [traverse, dif_neg hv]
  split <;> simp_all

lemma traverse_cons_ok {lg : Ledger} {address : Address} {mid : Mid}
    {rest visited : List Mid} {vf : List Vid} {lm : List Json} {ie : Bool}
    {refs : List Mid} {vids : List Vid} {jm : List (String × String)}
    (hv : mid ∉ visited)
    (hd : dump_lazy_map lg address mid =
      POut.ok (Except.ok (refs, vids, jm))) :
    traverse lg address (mid :: rest) visited vf lm ie =
      traverse lg address (rest ++ refs) (mid :: visited)
        (insert_all vf vids) (lm ++ [lazyMapJson jm]) ie := by
  rw [traverse, dif_neg hv]
  split <;> simp_all

lemma traverseFuel_adequate (lg : Ledger) (address : Address) :
    ∀ pending visited vaults_found lazy_maps internal_error,
      ∃ n, traverseFuel lg address n pending visited vaults_found
          lazy_maps internal_error =
        some (traverse lg address pending visited vaults_found
          lazy_maps internal_error) := by
  intro pending visited vaults_found lazy_maps internal_error
  induction pending, visited, vaults_found, lazy_maps, internal_error
      using traverse.induct lg address with
  | case1 visited vf lm ie =>
    exact ⟨0, by simp [traverseFuel, traverse_nil]⟩
  | case2 mid rest visited vf lm ie hmem ih =>
    obtain ⟨n, hn⟩ := ih
    exact ⟨n + 1, by
      rw [traverse_cons_mem hmem]
      simp [traverseFuel, hmem, hn]⟩
  | case3 mid rest visited vf lm ie hmem hdump =>
    exact ⟨1, by
      rw [traverse_cons_panic hmem hdump]
      simp [traverseFuel, hmem, hdump]⟩
  | case4 mid rest visited vf lm ie hmem u hdump ih =>
    obtain ⟨n, hn⟩ := ih
    exact ⟨n + 1, by
      rw [traverse_cons_error hmem hdump]
      simp [traverseFuel, hmem, hdump, hn]⟩
  | case5 mid rest visited vf lm ie hmem refs vids jm hdump ih =>
    obtain ⟨n, hn⟩ := ih
    exact ⟨n + 1, by
      rw [traverse_cons_ok hmem hdump]
      simp [traverseFuel, hmem, hdump, hn]⟩

lemma traverse_visited_invariant (lg : Ledger) (address : Address) :
    ∀ pending visited vaults_found lazy_maps internal_error,
      ∀ vis tail,
        traverse lg address pending visited vaults_found lazy_maps
            internal_error = POut.ok (vis, tail) →
        (visited.Nodup → vis.Nodup) ∧
        (∀ m, m ∈ pending ∨ m ∈ visited → m ∈ vis) := by
  intro pending visited vaults_found lazy_maps internal_error
  induction pending, visited, vaults_found, lazy_maps, internal_error
      using traverse.induct lg address with
  | case1 visited vf lm ie =>
    intro vis tail h
    rw [traverse_nil] at h
    simp only [POut.ok.injEq, Prod.mk.injEq] at h
    obtain ⟨h1, _⟩ := h
    subst h1
    refine ⟨fun hn => hn, ?_⟩
    intro m hm
    simpa using hm
  | case2 mid rest visited vf lm ie hmem ih =>
    intro vis tail h
    rw [traverse_cons_mem hmem] at h
    obtain ⟨ihN, ihM⟩ := ih vis tail h
    refine ⟨ihN, ?_⟩
    intro m hm
    apply ihM
    rcases hm with hm | hm
    · rcases List.mem_cons.mp hm with rfl | hm
      · exact Or.inr hmem
      · exact Or.inl hm
    · exact Or.inr hm
  | case3 mid rest visited vf lm ie hmem hdump =>
    intro vis tail h
    rw [traverse_cons_panic hmem hdump] at h
    cases h
  | case4 mid rest visited vf lm ie hmem u hdump ih =>
    intro vis tail h
    rw [traverse_cons_error hmem hdump] at h
    obtain ⟨ihN, ihM⟩ := ih vis tail h
    refine ⟨?_, ?_⟩
    · intro hn
      exact ihN (List.nodup_cons.mpr ⟨hmem, hn⟩)
    · intro m hm
      apply ihM
      rcases hm with hm | hm
      · rcases List.mem_cons.mp hm with rfl | hm
        · exact Or.inr (List.mem_cons_self _ _)
        · exact Or.inl hm
      · exact Or.inr (List.mem_cons_of_mem _ hm)
  | case5 mid rest visited vf lm ie hmem refs vids jm hdump ih =>
    intro vis tail h
    rw [traverse_cons_ok hmem hdump] at h
    obtain ⟨ihN, ihM⟩ := ih vis tail h
    refine ⟨?_, ?_⟩
    · intro hn
      exact ihN (List.nodup_cons.mpr ⟨hmem, hn⟩)
    · intro m hm
      apply ihM
      rcases hm with hm | hm
      · rcases List.mem_cons.mp hm with rfl | hm
        · exact Or.inr (List.mem_cons_self _ _)
        · exact Or.inl (List.mem_append_left _ hm)
      · exact Or.inr (List.mem_cons_of_mem _ hm)

lemma parse_signers_mem_none {parseKey : String → Option EcdsaPublicKey}
    {signers : List String} {s : String} (hs : s ∈ signers)
    (hk : parseKey s = none) :
    parse_signers parseKey signers = none := by
  induction signers with
  | nil => cases hs
  | cons a t ih =>
    rcases List.mem_cons.mp hs with rfl | hmem
    · simp [parse_signers, hk]
    · cases ha : parseKey a with
      | none => simp [parse_signers, ha]
      | some k => simp [parse_signers, ha, ih hmem]

/-! ## Claim theorems -/

/-- C1: the claim says "show" on an existing component returns the full
snapshot (metadata, decoded state string, collection entries, vault
holdings).  The code builds all of these in `return_vec` but never returns
them: on `storeSnapshot`, a component with metadata, valid state, one
decodable collection and one vault, the response is the constant JSON
string "ok", carrying none of the snapshot.  This contradicts both the
spec and the accumulation work the code itself performs. -/
theorem c1_show_component_returns_constant_ok :
    dump_component storeSnapshot (Address.component 1) =
      POut.ok (Except.ok (Json.str "ok")) := by
  simp [dump_component, storeSnapshot, Ledger.get_component,
    Ledger.get_lazy_map, Ledger.get_vault, Ledger.get_resource_def,
    alookup, validate_data, dump_lazy_map, dump_entries, dump_resources,
    dump_resources_list, insert_all, insert_new, traverse]

/-- C2 (counterexample): the claim says a decode failure still yields a
result carrying the already-discovered metadata with a warning flag.
On `storeBadState` (component present, state blob invalid) the code
instead answers an internal-error response, code 555, discarding the
metadata. -/
theorem c2_decode_failure_counterexample :
    dump_component storeBadState (Address.component 1) =
      POut.ok (internal_err "Problem while validating state" 555) := by
  simp [dump_component, storeBadState, Ledger.get_component, alookup,
    validate_data]

/-- C2 (amended): when the component exists and its top-level state
blob fails validation, "show" returns the internal-error response
(code 555) rather than a partial result carrying metadata. -/
theorem c2_decode_failure_internal_error (lg : Ledger) (a : Address)
    (c : Component) (hc : lg.get_component a = some c)
    (hs : validate_data c.state = Except.error ()) :
    dump_component lg a =
      POut.ok (internal_err "Problem while validating state" 555) := by
  simp [dump_component, hc, hs]

/-- C2 witness: the amended theorem applied to `storeBadState`. -/
theorem c2_decode_failure_internal_error_witness :
    dump_component storeBadState (Address.component 1) =
      POut.ok (internal_err "Problem while validating state" 555) :=
  c2_decode_failure_internal_error storeBadState (Address.component 1)
    { package_address := Address.package 9, blueprint_name := "BP",
      state := none }
    (by rfl) (by rfl)

/-- C3 (counterexample): the claim says the seven error kinds carry
pairwise-distinct codes, in particular key-parse differs from parameter
parse.  Both `ecdsa_err` and `parse_err` carry the JSON-RPC ParseError
code -32700. -/
theorem c3_error_code_collision :
    rpcCode ecdsa_err = rpcCode parse_err ∧
    rpcCode parse_err = some (-32700) := by
  exact ⟨rfl, rfl⟩

/-- C3 (amended): the six kinds parse, not-found, internal, compile,
execution and outcome-rejected carry pairwise-distinct codes, but the
key-parse error reuses the parameter-parse code, so those two cannot be
distinguished by code alone. -/
theorem c3_error_codes_distinct_except_key_parse :
    rpcCode ecdsa_err = rpcCode parse_err ∧
    List.Pairwise (fun a b => a ≠ b)
      [rpcCode parse_err,
       rpcCode (not_found_err "Component not found"),
       rpcCode (internal_err "Problem while validating state" 555),
       rpcCode transaction_compile_err,
       rpcCode transaction_execution_error,
       rpcCode transaction_validation_err] := by
  refine ⟨rfl, ?_⟩
  decide

/-- C4 (counterexample): the claim says an engine that could not run
the transaction is reported with the execution-error kind.  With an
engine that fails to run (`executeFail`), the response carries code 666
(`transaction_validation_err`), not the execution-error code 33. -/
theorem c4_engine_failure_code_counterexample :
    rpcCode (run parseKeyAll compileOk executeFail emptyStore
      runParamsNoSigners).response = some 666 ∧
    rpcCode transaction_execution_error = some 33 ∧
    rpcCode (run parseKeyAll compileOk executeFail emptyStore
      runParamsNoSigners).response ≠
      rpcCode transaction_execution_error := by
  refine ⟨rfl, rfl, ?_⟩
  decide

/-- C4 (amended): after a successful compile the two failure kinds are
reported with distinct, never-conflated codes, but swapped relative to
the claim: an engine that could not run yields
`transaction_validation_err` (code 666) and a transaction that ran with
a rejected assembled outcome yields `transaction_execution_error`
(code 33). -/
theorem c4_engine_vs_outcome_error_codes
    (parseKey : String → Option EcdsaPublicKey)
    (compile : String → Option Transaction)
    (execute : Ledger → Transaction → Except Unit Receipt × Ledger)
    (lg : Ledger) (params : RunParams)
    (signatures : List EcdsaPublicKey) (tx : Transaction)
    (hsig : parse_signers parseKey params.signers = some signatures)
    (hcm : compile params.manifest = some tx) :
    (∀ lg2,
      execute lg ⟨tx.instructions ++ [Instruction.endI signatures]⟩ =
        (Except.error (), lg2) →
      (run parseKey compile execute lg params).response =
        transaction_validation_err) ∧
    (∀ receipt lg2,
      execute lg ⟨tx.instructions ++ [Instruction.endI signatures]⟩ =
        (Except.ok receipt, lg2) →
      receipt.result = Except.error () →
      (run parseKey compile execute lg params).response =
        transaction_execution_error) ∧
    transaction_validation_err ≠ transaction_execution_error := by
  refine ⟨?_, ?_, ?_⟩
  · intro lg2 hex
    simp [run, hsig, hcm, hex]
  · intro receipt lg2 hex hres
    simp [run, hsig, hcm, hex, hres]
  · simp [transaction_validation_err, transaction_execution_error]

/-- C4 witness: the amended theorem applied to concrete capabilities:
a failing engine gives code 666, a rejecting outcome gives code 33. -/
theorem c4_engine_vs_outcome_error_codes_witness :
    (run parseKeyAll compileOk executeFail emptyStore
      runParamsNoSigners).response = transaction_validation_err ∧
    (run parseKeyAll compileOk executeReject emptyStore
      runParamsNoSigners).response = transaction_execution_error :=
  ⟨(c4_engine_vs_outcome_error_codes parseKeyAll compileOk executeFail
      emptyStore runParamsNoSigners [] ⟨[]⟩ (by rfl) (by rfl)).1
      emptyStore (by rfl),
   (c4_engine_vs_outcome_error_codes parseKeyAll compileOk executeReject
      emptyStore runParamsNoSigners [] ⟨[]⟩ (by rfl) (by rfl)).2.1
      ⟨Except.error (), [], []⟩ emptyStore (by rfl) (by rfl)⟩

/-- C5: for every store (hence every finite reachable reference graph,
cycles and shared sub-collections included) and every seed queue, the
while loop of `dump_component` finishes within some finite step budget
(`traverseFuel` agrees with the total `traverse`), and the trace of
`dump_lazy_map` invocations — the final visited list — is duplicate
free and covers every seeded identifier, even when the same identifier
is enqueued multiple times. -/
theorem c5_traversal_terminates_each_map_once (lg : Ledger)
    (address : Address) (pending : List Mid) :
    ∃ n r,
      traverseFuel lg address n pending [] [] [] false = some r ∧
      traverse lg address pending [] [] [] false = r ∧
      ∀ vis tail, r = POut.ok (vis, tail) →
        vis.Nodup ∧ ∀ m ∈ pending, m ∈ vis := by
  obtain ⟨n, hn⟩ := traverseFuel_adequate lg address pending [] [] [] false
  refine ⟨n, traverse lg address pending [] [] [] false, hn, rfl, ?_⟩
  intro vis tail hr
  obtain ⟨hN, hM⟩ :=
    traverse_visited_invariant lg address pending [] [] [] false vis tail hr
  exact ⟨hN List.nodup_nil, fun m hm => hM m (Or.inl hm)⟩

/-- C5 witness: the theorem applied to the cyclic store with collection
7 enqueued twice. -/
theorem c5_traversal_terminates_each_map_once_witness :
    ∃ n r,
      traverseFuel storeCyclic (Address.component 1) n [7, 8, 7] [] [] []
        false = some r ∧
      traverse storeCyclic (Address.component 1) [7, 8, 7] [] [] []
        false = r ∧
      ∀ vis tail, r = POut.ok (vis, tail) →
        vis.Nodup ∧ ∀ m ∈ [7, 8, 7], m ∈ vis :=
  c5_traversal_terminates_each_map_once storeCyclic (Address.component 1)
    [7, 8, 7]

/-- C6: when any signer string fails to parse, "run" aborts with the
key-parse error before any ledger access: the write lock is never
acquired and the store is returned unchanged. -/
theorem c6_bad_signer_no_store_access
    (parseKey : String → Option EcdsaPublicKey)
    (compile : String → Option Transaction)
    (execute : Ledger → Transaction → Except Unit Receipt × Ledger)
    (lg : Ledger) (params : RunParams) (s : String)
    (hs : s ∈ params.signers) (hk : parseKey s = none) :
    run parseKey compile execute lg params = ⟨ecdsa_err, lg, false⟩ := by
  simp [run, parse_signers_mem_none hs hk]

/-- C6 witness: a request whose single signer fails to parse leaves the
empty store untouched and never takes the write lock. -/
theorem c6_bad_signer_no_store_access_witness :
    run parseKeyNone compileOk executeFail emptyStore runParamsOneSigner =
      ⟨ecdsa_err, emptyStore, false⟩ :=
  c6_bad_signer_no_store_access parseKeyNone compileOk executeFail
    emptyStore runParamsOneSigner "bad" (by simp [runParamsOneSigner])
    (by rfl)

/-- C7 (counterexample): the claim says a payload decode failure is a
per-asset internal error that does not abort the remaining assets and
vaults.  On `storeBadNonFungible`, where vault 0 holds a non-fungible
with an invalid immutable payload and vault 1 is healthy, resolution
panics (the `unwrap` on `validate_data`), so vault 1 is never
resolved. -/
theorem c7_nf_decode_failure_counterexample :
    dump_resources storeBadNonFungible (Address.component 1) [0, 1] =
      POut.panic := by
  rfl

/-- C7 (amended): a decode failure of either non-fungible payload is
not reported per asset: the unwrapped validation panics the whole
resolution, aborting every remaining asset and vault. -/
theorem c7_nf_decode_failure_panics (lg : Ledger) (a : Address)
    (vid : Vid) (rest : List Vid) (vault : Vault) (key : NfKey)
    (krest : List NfKey) (resource_def : ResourceDef) (nf : NonFungible)
    (hv : lg.get_vault a vid = some vault)
    (hsupply : vault.total_supply = Supply.nonFungible (key :: krest))
    (hrd : lg.get_resource_def vault.resource_address = some resource_def)
    (hnf : lg.get_non_fungible vault.resource_address key = some nf)
    (hbad : validate_data nf.immutable_data = Except.error () ∨
            validate_data nf.mutable_data = Except.error ()) :
    dump_resources lg a (vid :: rest) = POut.panic := by
  have hpanic : dump_non_fungibles lg vault.resource_address
      (key :: krest) = POut.panic := by
    rcases hbad with hb | hb
    · simp [dump_non_fungibles, hnf, hb]
    · cases hi : validate_data nf.immutable_data with
      | error u => simp [dump_non_fungibles, hnf, hi]
      | ok vdata => simp [dump_non_fungibles, hnf, hi, hb]
  simp [dump_resources, dump_resources_list, hv, hrd, hsupply, hpanic]

/-- C7 witness: the amended theorem applied to `storeBadNonFungible`
and its single bad vault. -/
theorem c7_nf_decode_failure_panics_witness :
    dump_resources storeBadNonFungible (Address.component 1) [0] =
      POut.panic :=
  c7_nf_decode_failure_panics storeBadNonFungible (Address.component 1)
    0 []
    { amount := 1, resource_address := Address.resourceDef 2,
      total_supply := Supply.nonFungible [[4]] }
    [4] [] { metadata := [] }
    { immutable_data := none,
      mutable_data := some
        { dom := "m", raw := [], lazy_maps := [], vaults := [] } }
    (by rfl) (by rfl) (by rfl) (by rfl) (Or.inl (by rfl))

/-- C8: for a Package address, "show" answers not-found both when the
package is absent and when it is present with zero-length code, and it
answers `{bytes: n}` exactly when the package exists with code size
`n > 0`. -/
theorem c8_dump_package_not_found_or_bytes (lg : Ledger) (a : Address) :
    (lg.get_package a = none →
      dump_package lg a = not_found_err "Package not found") ∧
    (∀ p, lg.get_package a = some p → p.code.length = 0 →
      dump_package lg a = not_found_err "Package not found") ∧
    (∀ p, lg.get_package a = some p → 0 < p.code.length →
      dump_package lg a =
        Except.ok (Json.obj
          [("bytes", Json.num (Int.ofNat p.code.length))])) := by
  refine ⟨?_, ?_, ?_⟩
  · intro h
    simp [dump_package, h]
  · intro p hp hlen
    simp [dump_package, hp, hlen]
  · intro p hp hlen
    rw [dump_package]
    simp only [hp]
    rw [if_pos hlen]

/-- C8 witness: an absent package address answers not-found and the
stored 3-byte package answers `{bytes: 3}`. -/
theorem c8_dump_package_not_found_or_bytes_witness :
    dump_package storePackages (Address.package 6) =
      not_found_err "Package not found" ∧
    dump_package storePackages (Address.package 5) =
      Except.ok (Json.obj [("bytes", Json.num 3)]) :=
  ⟨(c8_dump_package_not_found_or_bytes storePackages
      (Address.package 6)).1 (by rfl),
   (c8_dump_package_not_found_or_bytes storePackages
      (Address.package 5)).2.2 ⟨[1, 2, 3]⟩ (by rfl) (by decide)⟩

/-- C10: every store point-lookup in the traversal is unwrapped, so an
absent dequeued collection, an absent discovered vault, an absent
resource definition for a vault's resource address, or an absent held
non-fungible key panics the handler instead of producing a not-found or
internal error response. -/
theorem c10_store_lookup_unwrap_panics :
    (∀ lg a mid, Ledger.get_lazy_map lg a mid = none →
      dump_lazy_map lg a mid = POut.panic) ∧
    (∀ lg a vid rest, Ledger.get_vault lg a vid = none →
      dump_resources lg a (vid :: rest) = POut.panic) ∧
    (∀ lg a vid rest vault, Ledger.get_vault lg a vid = some vault →
      Ledger.get_resource_def lg vault.resource_address = none →
      dump_resources lg a (vid :: rest) = POut.panic) ∧
    (∀ lg a vid rest vault key krest resource_def,
      Ledger.get_vault lg a vid = some vault →
      vault.total_supply = Supply.nonFungible (key :: krest) →
      Ledger.get_resource_def lg vault.resource_address =
        some resource_def →
      Ledger.get_non_fungible lg vault.resource_address key = none →
      dump_resources lg a (vid :: rest) = POut.panic) := by
  refine ⟨?_, ?_, ?_, ?_⟩
  · intro lg a mid h
    simp [dump_lazy_map, h]
  · intro lg a vid rest h
    simp [dump_resources, dump_resources_list, h]
  · intro lg a vid rest vault hv hrd
    simp [dump_resources, dump_resources_list, hv, hrd]
  · intro lg a vid rest vault key krest resource_def hv hsupply hrd hnf
    simp [dump_resources, dump_resources_list, hv, hrd, hsupply,
      dump_non_fungibles, hnf]

/-- C10 witness: each of the four absent-lookup scenarios, on concrete
stores, panics. -/
theorem c10_store_lookup_unwrap_panics_witness :
    dump_lazy_map emptyStore (Address.component 1) 0 = POut.panic ∧
    dump_resources emptyStore (Address.component 1) [0] = POut.panic ∧
    dump_resources storeNoResourceDef (Address.component 1) [0] =
      POut.panic ∧
    dump_resources storeNoNonFungible (Address.component 1) [0] =
      POut.panic :=
  ⟨c10_store_lookup_unwrap_panics.1 emptyStore (Address.component 1) 0
      (by rfl),
   c10_store_lookup_unwrap_panics.2.1 emptyStore (Address.component 1) 0
      [] (by rfl),
   c10_store_lookup_unwrap_panics.2.2.1 storeNoResourceDef
      (Address.component 1) 0 []
      { amount := 1, resource_address := Address.resourceDef 2,
        total_supply := Supply.fungible }
      (by rfl) (by rfl),
   c10_store_lookup_unwrap_panics.2.2.2 storeNoNonFungible
      (Address.component 1) 0 []
      { amount := 1, resource_address := Address.resourceDef 2,
        total_supply := Supply.nonFungible [[9]] }
      [9] [] { metadata := [] }
      (by rfl) (by rfl) (by rfl) (by rfl)⟩

end RadRpc
